import Mathlib

/-!
Verification development for the G-code parser (`gcode-parser.c`).

The C source is shallowly embedded: `float` values are modelled as exact
rationals (`Rat`), null-terminated C strings as `List Char` (the characters
before the terminator), and the callback struct as an inductive `GAction`
trace plus an explicit `unprocessed` callback function.  The in-place
cursor of the C tokenizer becomes value passing of the remaining line.
-/

/-- C `isspace` for the ASCII execution character set:
space, \t, \n, \v, \f, \r. -/
def cIsSpace (c : Char) : Bool :=
  c = ' ' || c = '\t' || c = '\n' || c = Char.ofNat 11 || c = Char.ofNat 12 || c = '\r'

/-- The `while (*line && isspace(*line)) line++;` idiom. -/
def skip_space : List Char → List Char
  | [] => []
  | c :: cs => if cIsSpace c then skip_space cs else c :: cs

/-- Longest prefix of decimal digits and the rest (helper for the
`strtof` model). -/
def takeDigits : List Char → List Char × List Char
  | [] => ([], [])
  | c :: cs =>
    if c.isDigit then (c :: (takeDigits cs).1, (takeDigits cs).2)
    else ([], c :: cs)

/-- Value of a digit string, most significant digit first. -/
def digitsToNat (ds : List Char) : Nat :=
  ds.foldl (fun n c => 10 * n + (c.toNat - 48)) 0

/-!
Rational arithmetic layer.  The Batteries `Rat.add`/`Rat.mul`/... are
`@[irreducible]`, which blocks kernel evaluation of concrete parser runs,
so the embedding computes with `mkRat`-based equivalents; the lemmas
`qadd_eq`, `qsub_eq`, `qmul_eq`, `qdivPow10_eq` below prove they are the
ordinary field operations on `Rat`.
-/

def qadd (a b : Rat) : Rat := mkRat (a.num * b.den + b.num * a.den) (a.den * b.den)

def qsub (a b : Rat) : Rat := mkRat (a.num * b.den - b.num * a.den) (a.den * b.den)

def qmul (a b : Rat) : Rat := mkRat (a.num * b.num) (a.den * b.den)

def qdivPow10 (q : Rat) (k : Nat) : Rat := mkRat q.num (q.den * 10 ^ k)

def ratPow10 (n : Nat) : Rat := ((10 ^ n : Nat) : Rat)

def sign_part (s : List Char) : Rat × List Char :=
  match s with
  | '+' :: r => (1, r)
  | '-' :: r => (mkRat (-1) 1, r)
  | _ => (1, s)

def frac_part (s : List Char) : Option (List Char) × List Char :=
  match s with
  | '.' :: r => (some (takeDigits r).1, (takeDigits r).2)
  | _ => (none, s)

def exp_sign_part (s : List Char) : Int × List Char :=
  match s with
  | '+' :: rr => (1, rr)
  | '-' :: rr => (-1, rr)
  | _ => (1, s)

def exp_part (s : List Char) : Int × List Char :=
  match s with
  | e :: r =>
    if e = 'e' ∨ e = 'E' then
      if (takeDigits (exp_sign_part r).2).1 = [] then (0, e :: r)
      else ((exp_sign_part r).1 * (digitsToNat (takeDigits (exp_sign_part r).2).1 : Int),
        (takeDigits (exp_sign_part r).2).2)
    else (0, e :: r)
  | [] => (0, [])

/-- Scale by a (possibly negative) power of ten. -/
def apply_exp (q : Rat) (e : Int) : Rat :=
  match e with
  | Int.ofNat n => qmul q (ratPow10 n)
  | Int.negSucc n => qdivPow10 q (n + 1)

/-- Model of C `strtof(line, &endptr)` restricted to decimal literals:
optional sign, digits with optional fraction, optional exponent.  Returns
`none` when no conversion is performed (`endptr == line` in C), otherwise
the exact rational value and the rest of the string after the literal.
The callers in `gcode-parser.c` have already skipped leading whitespace,
and the hexadecimal ambiguity (`0x...`) is excluded there by the repair
workaround, so only the decimal forms are modelled; `inf`/`nan` literals
are likewise outside the fragment the parser feeds to `strtof`. -/
def strtof_dec (s : List Char) : Option (Rat × List Char) :=
  let sp := sign_part s
  let ip := takeDigits sp.2
  let fp := frac_part ip.2
  if ip.1 = [] ∧ (fp.1 = none ∨ fp.1 = some []) then
    none
  else
    let mant : Rat :=
      qadd (digitsToNat ip.1 : Rat)
        (match fp.1 with
         | some ds => qdivPow10 (digitsToNat ds : Rat) ds.length
         | none => 0)
    let ep := exp_part fp.2
    some (apply_exp (qmul sp.1 mant) ep.1, ep.2)

/-- The numeric-field part of `parse_next_pair`: the hexadecimal repair
workaround (lines 120-129 of the source) followed by `strtof` and the
trailing-whitespace skip.  When the character one past the start of the
field is `x`/`X`, the literal is cut there (`*repair_x = '\0'`), parsed,
and the byte is restored as an uppercase `X` (line 129), so the returned
rest starts with `X` even when the input had a lowercase `x`. -/
def number_part (num : List Char) : Option (Rat × List Char) :=
  match num with
  | c :: x :: rest2 =>
    if x = 'x' ∨ x = 'X' then
      match strtof_dec [c] with
      | none => none
      | some (v, _) => some (v, skip_space ('X' :: rest2))
    else
      match strtof_dec (c :: x :: rest2) with
      | none => none
      | some (v, rest) => some (v, skip_space rest)
  | _ =>
    match strtof_dec num with
    | none => none
    | some (v, rest) => some (v, skip_space rest)

/-- `parse_next_pair` (lines 99-142): skip whitespace; stop at end of
line, `;` or `%`; take the letter (uppercased); error (`none`) when the
string ends right after the letter; stop at a `*` checksum marker; then
parse the numeric field.  `none` covers both the end-of-parsing and the
two diagnostic error cases, exactly as the C function returns `NULL` for
all of them. -/
def parse_pair_core : List Char → Option (Char × Rat × List Char)
  | [] => none
  | c0 :: rest0 =>
    if c0 = ';' ∨ c0 = '%' then none
    else if rest0 = [] then none
    else if c0.toUpper = '*' then none
    else
      match number_part (skip_space rest0) with
      | none => none
      | some (v, rest) => some (c0.toUpper, v, rest)

def parse_next_pair (line : List Char) : Option (Char × Rat × List Char) :=
  parse_pair_core (skip_space line)

/-- Mirrors the control flow of `parse_next_pair` up to the hexadecimal
workaround read `*(line+1)` (line 123): returns `true` exactly when that
read happens while the cursor already sits on the terminating NUL, i.e.
when the C code reads one character past the end of the string. -/
def hex_check_core : List Char → Bool
  | [] => false
  | c0 :: rest0 =>
    if c0 = ';' ∨ c0 = '%' then false
    else if rest0 = [] then false
    else if c0.toUpper = '*' then false
    else (skip_space rest0).isEmpty

def hex_check_reads_past_end (line : List Char) : Bool :=
  hex_check_core (skip_space line)

/-- Modelled from the spec: the axis enumeration of `gcode-parser.h`
(which is not among the provided sources) — seven logical axes
X, Y, Z, E, A, B, C identified by small integer indices, in that order. -/
def AXIS_X : Nat := 0
def AXIS_Y : Nat := 1
def AXIS_Z : Nat := 2
def AXIS_E : Nat := 3
def AXIS_A : Nat := 4
def AXIS_B : Nat := 5
def AXIS_C : Nat := 6
def GCODE_NUM_AXES : Nat := 7

/-- `kAllAxesBitmap` (lines 10-12). -/
def kAllAxesBitmap : Nat :=
  (1 <<< AXIS_X) ||| (1 <<< AXIS_Y) ||| (1 <<< AXIS_Z) |||
    (1 <<< AXIS_E) ||| (1 <<< AXIS_A) ||| (1 <<< AXIS_B) ||| (1 <<< AXIS_C)

/-- `struct GCodeParser` (lines 14-23): the machine state.  The fixed C
arrays `AxesRegister` / `axis_is_absolute` are length-7 lists; the
callback struct and userdata are factored out into the `GAction` trace. -/
structure GCodeParser where
  unit_to_mm_factor : Rat
  axis_is_absolute : List Bool
  current_feedrate : Rat
  relative_zero : List Rat
  axes_pos : List Rat
deriving DecidableEq, Repr

/-- The fixed-array well-formedness the C struct guarantees by type. -/
def WellFormed (p : GCodeParser) : Prop :=
  p.axis_is_absolute.length = GCODE_NUM_AXES ∧
    p.relative_zero.length = GCODE_NUM_AXES ∧
    p.axes_pos.length = GCODE_NUM_AXES

instance (p : GCodeParser) : Decidable (WellFormed p) := by
  unfold WellFormed; infer_instance

/-- One emitted callback invocation of the action sink. -/
inductive GAction where
  | set_feedrate (f : Rat)
  | set_temperature (f : Rat)
  | set_fanspeed (f : Rat)
  | wait_temperature
  | disable_motors
  | rapid_move (axes : List Rat)
  | coordinated_move (axes : List Rat)
  | go_home (flags : Nat)
  | unprocessed (letter : Char) (value : Rat) (remaining : List Char)
deriving DecidableEq, Repr

/-- The `unprocessed` callback: receives letter, value and remaining
line, returns the line to resume from, `none` standing for C `NULL`. -/
abbrev UnprocessedCb := Char → Rat → List Char → Option (List Char)

/-- `dummy_unprocessed` (lines 47-52): the default callback prints a
diagnostic and returns `NULL`. -/
def dummy_unprocessed : UnprocessedCb := fun _ _ _ => none

/-- `gcodep_new` (lines 60-91): zero-initialized state, then metric
units and absolute mode on all axes. -/
def gcodep_new : GCodeParser :=
  { unit_to_mm_factor := 1
    axis_is_absolute := List.replicate GCODE_NUM_AXES true
    current_feedrate := 0
    relative_zero := List.replicate GCODE_NUM_AXES 0
    axes_pos := List.replicate GCODE_NUM_AXES 0 }

/-- The switch cases `'X'..'C'` shared by `handle_home`,
`handle_rebase` and `handle_move`. -/
def axis_letter_index (c : Char) : Option Nat :=
  if c = 'X' then some AXIS_X
  else if c = 'Y' then some AXIS_Y
  else if c = 'Z' then some AXIS_Z
  else if c = 'E' then some AXIS_E
  else if c = 'A' then some AXIS_A
  else if c = 'B' then some AXIS_B
  else if c = 'C' then some AXIS_C
  else none

/-- The parameter-consuming loop of `handle_home` (lines 148-168),
with a fuel argument for termination (each successful `parse_next_pair`
strictly shrinks the line, so `line.length + 1` fuel is always enough). -/
def home_loop : Nat → List Char → Nat → Nat × List Char
  | 0, line, flags => (flags, line)
  | fuel + 1, line, flags =>
    match parse_next_pair line with
    | none => (flags, line)
    | some (axis, _, remaining) =>
      match axis_letter_index axis with
      | some i => home_loop fuel remaining (flags ||| (1 <<< i))
      | none => (flags, line)

/-- `handle_home` (lines 144-172): zero both registers, collect the
bitmask of named axes (values ignored), emit one `go_home`. -/
def handle_home (p : GCodeParser) (line : List Char) :
    GCodeParser × List GAction × List Char :=
  let p1 := { p with
    axes_pos := List.replicate GCODE_NUM_AXES 0
    relative_zero := List.replicate GCODE_NUM_AXES 0 }
  let hl := home_loop (line.length + 1) line 0
  (p1, [GAction.go_home (if hl.1 ≠ 0 then hl.1 else kAllAxesBitmap)], hl.2)

/-- The loop of `handle_rebase` (lines 178-196). -/
def rebase_loop : Nat → GCodeParser → List Char → GCodeParser × List Char
  | 0, p, line => (p, line)
  | fuel + 1, p, line =>
    match parse_next_pair line with
    | none => (p, line)
    | some (axis, value, remaining) =>
      match axis_letter_index axis with
      | some i =>
        let unit_value := qmul value p.unit_to_mm_factor
        rebase_loop fuel
          { p with relative_zero :=
              p.relative_zero.set i (qsub (p.axes_pos.getD i 0) unit_value) }
          remaining
      | none => (p, line)

/-- `handle_rebase` (lines 174-198): `relative_zero[axis] =
axes_pos[axis] - unit_value` for each consumed axis word; no action. -/
def handle_rebase (p : GCodeParser) (line : List Char) :
    GCodeParser × List GAction × List Char :=
  let rl := rebase_loop (line.length + 1) p line
  (rl.1, [], rl.2)

/-- `set_S_param` (lines 200-211): consume one optional `S<value>` word
and emit through the given setter. -/
def set_S_param (mkAct : Rat → GAction) (line : List Char) :
    List GAction × List Char :=
  match parse_next_pair line with
  | some (letter, value, remaining) =>
    if letter = 'S' then ([mkAct value], remaining) else ([], line)
  | none => ([], line)

/-- The axis update of `handle_move` (lines 245-253): absolute mode
resolves against `relative_zero`, relative mode adds to the current
position; `u` is the already unit-scaled value. -/
def move_axis_update (p : GCodeParser) (i : Nat) (u : Rat) : Rat :=
  if p.axis_is_absolute.getD i false then qadd (p.relative_zero.getD i 0) u
  else qadd (p.axes_pos.getD i 0) u

/-- The loop of `handle_move` (lines 223-258), fueled.  Feedrate
actions are emitted in encounter order (prepended to the recursive
trace); the base case appends the final move action when any axis
changed, matching line 260. -/
def move_loop (mk : List Rat → GAction) :
    Nat → GCodeParser → List Char → Bool → GCodeParser × List GAction × List Char
  | 0, p, line, any_change =>
    (p, (if any_change then [mk p.axes_pos] else []), line)
  | fuel + 1, p, line, any_change =>
    match parse_next_pair line with
    | none => (p, (if any_change then [mk p.axes_pos] else []), line)
    | some (axis, value, remaining) =>
      let unit_value := qmul value p.unit_to_mm_factor
      if axis = 'F' then
        if p.current_feedrate = unit_value then
          move_loop mk fuel p remaining any_change
        else
          let r := move_loop mk fuel
            { p with current_feedrate := unit_value } remaining any_change
          (r.1, GAction.set_feedrate unit_value :: r.2.1, r.2.2)
      else
        match axis_letter_index axis with
        | some i =>
          move_loop mk fuel
            { p with axes_pos := p.axes_pos.set i (move_axis_update p i unit_value) }
            remaining true
        | none => (p, (if any_change then [mk p.axes_pos] else []), line)

/-- `handle_move` (lines 213-262). -/
def handle_move (p : GCodeParser) (mk : List Rat → GAction)
    (line : List Char) : GCodeParser × List GAction × List Char :=
  move_loop mk (line.length + 1) p line false

/-- C truncation of a float to `int`: toward zero. -/
def ctrunc (q : Rat) : Int := if 0 ≤ q then q.floor else q.ceil

/-- The `G` dispatch switch (lines 268-281).  The command code is the
value truncated to an integer; an unhandled code goes to the
`unprocessed` callback, whose result (possibly `NULL`) becomes the new
line. -/
def exec_G (p : GCodeParser) (cb : UnprocessedCb) (value : Rat)
    (line : List Char) : GCodeParser × List GAction × Option (List Char) :=
  let code := ctrunc value
  if code = 0 then
    let r := handle_move p GAction.rapid_move line
    (r.1, r.2.1, some r.2.2)
  else if code = 1 then
    let r := handle_move p GAction.coordinated_move line
    (r.1, r.2.1, some r.2.2)
  else if code = 20 then ({ p with unit_to_mm_factor := mkRat 127 5 }, [], some line)
  else if code = 21 then ({ p with unit_to_mm_factor := 1 }, [], some line)
  else if code = 28 then
    let r := handle_home p line
    (r.1, r.2.1, some r.2.2)
  else if code = 90 then
    ({ p with axis_is_absolute := List.replicate GCODE_NUM_AXES true }, [], some line)
  else if code = 91 then
    ({ p with axis_is_absolute := List.replicate GCODE_NUM_AXES false }, [], some line)
  else if code = 92 then
    let r := handle_rebase p line
    (r.1, r.2.1, some r.2.2)
  else
    (p, [GAction.unprocessed 'G' value line], cb 'G' value line)

/-- The `M` dispatch switch (lines 284-319). -/
def exec_M (p : GCodeParser) (cb : UnprocessedCb) (value : Rat)
    (line : List Char) : GCodeParser × List GAction × Option (List Char) :=
  let code := ctrunc value
  if code = 82 then
    ({ p with axis_is_absolute := p.axis_is_absolute.set AXIS_E true }, [], some line)
  else if code = 83 then
    ({ p with axis_is_absolute := p.axis_is_absolute.set AXIS_E false }, [], some line)
  else if code = 84 then (p, [GAction.disable_motors], some line)
  else if code = 104 then
    let r := set_S_param GAction.set_temperature line
    (p, r.1, some r.2)
  else if code = 106 then
    let r := set_S_param GAction.set_fanspeed line
    (p, r.1, some r.2)
  else if code = 107 then (p, [GAction.set_fanspeed 0], some line)
  else if code = 109 then
    let r := set_S_param GAction.set_temperature line
    (p, r.1 ++ [GAction.wait_temperature], some r.2)
  else if code = 116 then (p, [GAction.wait_temperature], some line)
  else
    (p, [GAction.unprocessed 'M' value line], cb 'M' value line)

/-- The top-level loop of `gcodep_parse_line` (lines 264-328), fueled;
a `none` line is the C `NULL` pointer (`parse_next_pair(NULL)` returns
`NULL`, ending the loop). -/
def parse_loop (cb : UnprocessedCb) :
    Nat → GCodeParser → Option (List Char) → GCodeParser × List GAction
  | 0, p, _ => (p, [])
  | _ + 1, p, none => (p, [])
  | fuel + 1, p, some line =>
    match parse_next_pair line with
    | none => (p, [])
    | some (letter, value, rest) =>
      if letter = 'G' then
        let r := exec_G p cb value rest
        let t := parse_loop cb fuel r.1 r.2.2
        (t.1, r.2.1 ++ t.2)
      else if letter = 'M' then
        let r := exec_M p cb value rest
        let t := parse_loop cb fuel r.1 r.2.2
        (t.1, r.2.1 ++ t.2)
      else if letter = 'N' then
        parse_loop cb fuel p (some rest)
      else
        let t := parse_loop cb fuel p (cb letter value rest)
        (t.1, GAction.unprocessed letter value rest :: t.2)

/-- `gcodep_parse_line` (lines 264-328): interpret one line.  Every
iteration of the loop consumes at least one character of the line (or
ends it), so `line.length + 1` fuel is exact for any callback that
returns a suffix or `NULL` — in particular for the default one. -/
def gcodep_parse_line (cb : UnprocessedCb) (p : GCodeParser)
    (line : List Char) : GCodeParser × List GAction :=
  parse_loop cb (line.length + 1) p (some line)

/-- The G codes with a registered handler (the explicit cases of the
switch at lines 269-277). -/
def handledGCodes : List Int := [0, 1, 20, 21, 28, 90, 91, 92]

/-- The M codes with a registered handler (lines 284-314). -/
def handledMCodes : List Int := [82, 83, 84, 104, 106, 107, 109, 116]

/-- Declarative token sequence of a line: the (letter, value) pairs the
tokenizer yields, in order. -/
def tokens : Nat → List Char → List (Char × Rat)
  | 0, _ => []
  | fuel + 1, line =>
    match parse_next_pair line with
    | none => []
    | some (c, v, r) => (c, v) :: tokens fuel r

/-- The single-axis bit contributed by a letter (0 for non-axis letters). -/
def axisBit (c : Char) : Nat :=
  match axis_letter_index c with
  | some i => 1 <<< i
  | none => 0

/-- Declarative reading of the spec sentence for homing: the bitmask
accumulated over the axis-letter words up to the first non-axis letter,
the values being ignored. -/
def named_axes_mask (fuel : Nat) (line : List Char) : Nat :=
  ((tokens fuel line).takeWhile (fun t => (axis_letter_index t.1).isSome)).foldl
    (fun m t => m ||| axisBit t.1) 0

/-- A letter the G0/G1 handler recognizes as its own parameter. -/
def is_move_param (c : Char) : Bool :=
  c = 'F' || (axis_letter_index c).isSome

/-- The move-parameter words of a line: the tokens up to the first
letter that is neither `F` nor an axis. -/
def move_params (fuel : Nat) (line : List Char) : List (Char × Rat) :=
  (tokens fuel line).takeWhile (fun t => is_move_param t.1)

/-- Declarative reading of the spec sentences for one move-parameter
word: `F` updates the feedrate, emitting a feedrate action only on
change; an axis letter updates that axis by the absolute/relative rule,
scaling by the unit factor first. -/
def move_step (st : GCodeParser × List GAction) (t : Char × Rat) :
    GCodeParser × List GAction :=
  let p := st.1
  let u := qmul t.2 p.unit_to_mm_factor
  if t.1 = 'F' then
    if p.current_feedrate = u then st
    else ({ p with current_feedrate := u }, st.2 ++ [GAction.set_feedrate u])
  else
    match axis_letter_index t.1 with
    | some i =>
      ({ p with axes_pos := p.axes_pos.set i (move_axis_update p i u) }, st.2)
    | none => st

/-- Declarative reading of the whole G0/G1 spec paragraph: fold the
move-parameter words over the state, then emit exactly one move action
carrying the full final position vector when at least one axis word was
consumed, and none otherwise. -/
def move_spec (p : GCodeParser) (mk : List Rat → GAction)
    (line : List Char) : GCodeParser × List GAction :=
  let toks := move_params (line.length + 1) line
  let r := toks.foldl move_step (p, [])
  (r.1, r.2 ++ (if toks.any (fun t => (axis_letter_index t.1).isSome) then
    [mk r.1.axes_pos] else []))

/-- Where the move handler leaves the cursor: after the consumed
move-parameter words. -/
def move_rest : Nat → List Char → List Char
  | 0, line => line
  | fuel + 1, line =>
    match parse_next_pair line with
    | none => line
    | some (c, _, r) => if is_move_param c then move_rest fuel r else line


/-- Recognizer for feedrate-change actions (used to count them). -/
def is_set_feedrate : GAction → Bool
  | GAction.set_feedrate _ => true
  | _ => false

theorem skip_space_length (l : List Char) : (skip_space l).length ≤ l.length := by
  induction l with
  | nil => simp [skip_space]
  | cons c cs ih =>
    simp only [skip_space]
    split
    · exact Nat.le_succ_of_le ih
    · simp

theorem takeDigits_length (l : List Char) : (takeDigits l).2.length ≤ l.length := by
  induction l with
  | nil => simp [takeDigits]
  | cons c cs ih =>
    simp only [takeDigits]
    split
    · exact Nat.le_succ_of_le ih
    · simp

theorem sign_part_length (s : List Char) : (sign_part s).2.length ≤ s.length := by
  unfold sign_part
  split <;> simp

theorem frac_part_length (s : List Char) : (frac_part s).2.length ≤ s.length := by
  unfold frac_part
  split
  · exact Nat.le_succ_of_le (takeDigits_length _)
  · exact Nat.le_refl _

theorem exp_sign_part_length (s : List Char) :
    (exp_sign_part s).2.length ≤ s.length := by
  unfold exp_sign_part
  split <;> simp

theorem exp_part_length (s : List Char) : (exp_part s).2.length ≤ s.length := by
  unfold exp_part
  split
  case h_1 e r =>
    split
    · split
      · simp
      · refine Nat.le_trans (takeDigits_length _) ?_
        refine Nat.le_trans (exp_sign_part_length _) ?_
        simp
    · simp
  case h_2 => simp

theorem strtof_dec_length {s : List Char} {v : Rat} {r : List Char}
    (h : strtof_dec s = some (v, r)) : r.length ≤ s.length := by
  simp only [strtof_dec] at h
  split at h
  · exact absurd h (by simp)
  · simp only [Option.some.injEq, Prod.mk.injEq] at h
    obtain ⟨-, h2⟩ := h
    subst h2
    calc (exp_part (frac_part (takeDigits (sign_part s).2).2).2).2.length
        ≤ (frac_part (takeDigits (sign_part s).2).2).2.length := exp_part_length _
      _ ≤ (takeDigits (sign_part s).2).2.length := frac_part_length _
      _ ≤ (sign_part s).2.length := takeDigits_length _
      _ ≤ s.length := sign_part_length _

theorem number_part_length {num : List Char} {v : Rat} {r : List Char}
    (h : number_part num = some (v, r)) : r.length ≤ num.length := by
  unfold number_part at h
  split at h
  case h_1 c x rest2 =>
    split at h
    · cases hs : strtof_dec [c] with
      | none => rw [hs] at h; exact absurd h (by simp)
      | some p =>
        rw [hs] at h
        simp only [Option.some.injEq, Prod.mk.injEq] at h
        obtain ⟨-, h2⟩ := h
        subst h2
        calc (skip_space ('X' :: rest2)).length
            ≤ ('X' :: rest2).length := skip_space_length _
          _ ≤ (c :: x :: rest2).length := by simp
    · cases hs : strtof_dec (c :: x :: rest2) with
      | none => rw [hs] at h; exact absurd h (by simp)
      | some p =>
        rw [hs] at h
        simp only [Option.some.injEq, Prod.mk.injEq] at h
        obtain ⟨-, h2⟩ := h
        subst h2
        exact Nat.le_trans (skip_space_length _) (strtof_dec_length hs)
  case h_2 =>
    cases hs : strtof_dec num with
    | none => rw [hs] at h; exact absurd h (by simp)
    | some p =>
      rw [hs] at h
      simp only [Option.some.injEq, Prod.mk.injEq] at h
      obtain ⟨-, h2⟩ := h
      subst h2
      exact Nat.le_trans (skip_space_length _) (strtof_dec_length hs)

theorem parse_pair_core_length {l : List Char} {c : Char} {v : Rat}
    {r : List Char} (h : parse_pair_core l = some (c, v, r)) :
    r.length < l.length := by
  cases l with
  | nil => exact absurd h (by simp [parse_pair_core])
  | cons c0 rest0 =>
    simp only [parse_pair_core] at h
    split at h
    · exact absurd h (by simp)
    · split at h
      · exact absurd h (by simp)
      · split at h
        · exact absurd h (by simp)
        · cases hn : number_part (skip_space rest0) with
          | none => rw [hn] at h; exact absurd h (by simp)
          | some p =>
            rw [hn] at h
            simp only [Option.some.injEq, Prod.mk.injEq] at h
            obtain ⟨-, -, h3⟩ := h
            subst h3
            have h4 : p.2.length ≤ (skip_space rest0).length :=
              number_part_length (v := p.1) (by simpa using hn)
            have h5 : (skip_space rest0).length ≤ rest0.length := skip_space_length _
            simp only [List.length_cons]
            omega

theorem parse_next_pair_length {line : List Char} {c : Char} {v : Rat}
    {r : List Char} (h : parse_next_pair line = some (c, v, r)) :
    r.length < line.length := by
  have h1 : r.length < (skip_space line).length := parse_pair_core_length h
  exact Nat.lt_of_lt_of_le h1 (skip_space_length _)

theorem tokens_none {fuel : Nat} {line : List Char}
    (hp : parse_next_pair line = none) : tokens (fuel + 1) line = [] := by
  simp [tokens, hp]

theorem tokens_some {fuel : Nat} {line : List Char} {c : Char} {v : Rat}
    {r : List Char} (hp : parse_next_pair line = some (c, v, r)) :
    tokens (fuel + 1) line = (c, v) :: tokens fuel r := by
  simp [tokens, hp]

theorem foldl_lor_init (l : List (Char × Rat)) (a : Nat) :
    l.foldl (fun m t => m ||| axisBit t.1) a =
      a ||| l.foldl (fun m t => m ||| axisBit t.1) 0 := by
  induction l generalizing a with
  | nil => simp
  | cons t ts ih =>
    simp only [List.foldl_cons]
    rw [ih (a ||| axisBit t.1), ih (0 ||| axisBit t.1)]
    simp [Nat.lor_assoc]

theorem named_axes_mask_none {fuel : Nat} {line : List Char}
    (hp : parse_next_pair line = none) :
    named_axes_mask (fuel + 1) line = 0 := by
  simp [named_axes_mask, tokens_none hp]

theorem named_axes_mask_axis {fuel : Nat} {line : List Char} {axis : Char}
    {val : Rat} {remaining : List Char} {i : Nat}
    (hp : parse_next_pair line = some (axis, val, remaining))
    (ha : axis_letter_index axis = some i) :
    named_axes_mask (fuel + 1) line =
      (1 <<< i) ||| named_axes_mask fuel remaining := by
  unfold named_axes_mask
  rw [tokens_some hp, List.takeWhile_cons_of_pos (by simp [ha]), List.foldl_cons,
    foldl_lor_init]
  simp [axisBit, ha]

theorem named_axes_mask_stop {fuel : Nat} {line : List Char} {axis : Char}
    {val : Rat} {remaining : List Char}
    (hp : parse_next_pair line = some (axis, val, remaining))
    (ha : axis_letter_index axis = none) :
    named_axes_mask (fuel + 1) line = 0 := by
  simp [named_axes_mask, tokens_some hp, List.takeWhile_cons, ha]

theorem home_flags_spec (fuel : Nat) :
    ∀ (line : List Char) (flags : Nat), line.length < fuel →
      (home_loop fuel line flags).1 = flags ||| named_axes_mask fuel line := by
  induction fuel with
  | zero => intro line flags h; omega
  | succ f ih =>
    intro line flags h
    cases hp : parse_next_pair line with
    | none => simp [home_loop, hp, named_axes_mask_none hp]
    | some t =>
      obtain ⟨axis, val, remaining⟩ := t
      cases ha : axis_letter_index axis with
      | none => simp [home_loop, hp, ha, named_axes_mask_stop hp ha]
      | some i =>
        have hr : remaining.length < f :=
          Nat.lt_of_lt_of_le (parse_next_pair_length hp) (Nat.lt_succ_iff.mp h)
        simp only [home_loop, hp, ha]
        rw [ih remaining _ hr, named_axes_mask_axis hp ha, Nat.lor_assoc]

theorem axis_letter_index_ne_F {c : Char} {i : Nat}
    (ha : axis_letter_index c = some i) : c ≠ 'F' := by
  intro hc
  subst hc
  simp [axis_letter_index] at ha

theorem move_step_acc (t : Char × Rat) (q : GCodeParser) (a : List GAction) :
    move_step (q, a) t = ((move_step (q, []) t).1, a ++ (move_step (q, []) t).2) := by
  simp only [move_step]
  split
  · split <;> simp
  · split <;> simp

theorem foldl_move_step_acc (ts : List (Char × Rat)) :
    ∀ (q : GCodeParser) (a : List GAction),
      ts.foldl move_step (q, a) =
        ((ts.foldl move_step (q, [])).1, a ++ (ts.foldl move_step (q, [])).2) := by
  induction ts with
  | nil => simp
  | cons t ts ih =>
    intro q a
    rcases hm : move_step (q, []) t with ⟨m1, m2⟩
    simp only [List.foldl_cons, move_step_acc t q a, hm]
    rw [ih m1 (a ++ m2), ih m1 m2]
    simp

theorem move_params_none {fuel : Nat} {line : List Char}
    (hp : parse_next_pair line = none) : move_params (fuel + 1) line = [] := by
  simp [move_params, tokens_none hp]

theorem move_params_cons {fuel : Nat} {line : List Char} {c : Char} {v : Rat}
    {r : List Char} (hp : parse_next_pair line = some (c, v, r))
    (hm : is_move_param c = true) :
    move_params (fuel + 1) line = (c, v) :: move_params fuel r := by
  unfold move_params
  rw [tokens_some hp, List.takeWhile_cons_of_pos (by simpa using hm)]

theorem move_params_stop {fuel : Nat} {line : List Char} {c : Char} {v : Rat}
    {r : List Char} (hp : parse_next_pair line = some (c, v, r))
    (hm : is_move_param c = false) :
    move_params (fuel + 1) line = [] := by
  unfold move_params
  rw [tokens_some hp, List.takeWhile_cons_of_neg (by simpa using hm)]

theorem move_rest_none {fuel : Nat} {line : List Char}
    (hp : parse_next_pair line = none) : move_rest (fuel + 1) line = line := by
  simp [move_rest, hp]

theorem move_rest_cons {fuel : Nat} {line : List Char} {c : Char} {v : Rat}
    {r : List Char} (hp : parse_next_pair line = some (c, v, r))
    (hm : is_move_param c = true) :
    move_rest (fuel + 1) line = move_rest fuel r := by
  simp [move_rest, hp, hm]

theorem move_rest_stop {fuel : Nat} {line : List Char} {c : Char} {v : Rat}
    {r : List Char} (hp : parse_next_pair line = some (c, v, r))
    (hm : is_move_param c = false) :
    move_rest (fuel + 1) line = line := by
  simp [move_rest, hp, hm]

theorem move_loop_spec (mk : List Rat → GAction) (fuel : Nat) :
    ∀ (line : List Char) (p : GCodeParser) (any : Bool), line.length < fuel →
      move_loop mk fuel p line any =
        (((move_params fuel line).foldl move_step (p, [])).1,
          ((move_params fuel line).foldl move_step (p, [])).2 ++
            (if any || (move_params fuel line).any
                (fun t => (axis_letter_index t.1).isSome) then
              [mk ((move_params fuel line).foldl move_step (p, [])).1.axes_pos]
            else []),
          move_rest fuel line) := by
  induction fuel with
  | zero => intro line p any h; omega
  | succ f ih =>
    intro line p any h
    cases hp : parse_next_pair line with
    | none =>
      simp [move_loop, hp, move_params_none hp, move_rest_none hp]
    | some t =>
      obtain ⟨c, v, remaining⟩ := t
      have hr : remaining.length < f :=
        Nat.lt_of_lt_of_le (parse_next_pair_length hp) (Nat.lt_succ_iff.mp h)
      have hFa : axis_letter_index 'F' = none := by decide
      by_cases hF : c = 'F'
      · subst hF
        have hmp : is_move_param 'F' = true := by simp [is_move_param]
        rw [move_params_cons hp hmp, move_rest_cons hp hmp]
        by_cases hfe : p.current_feedrate = qmul v p.unit_to_mm_factor
        · have hstep : move_step (p, []) ('F', v) = (p, []) := by
            simp [move_step, hfe]
          simp only [move_loop, hp, if_pos rfl, hfe, if_true, List.foldl_cons,
            hstep, List.any_cons]
          rw [ih remaining p any hr]
          simp only [hFa, Option.isSome_none, Bool.false_or]
        · have hstep : move_step (p, []) ('F', v) =
              ({ p with current_feedrate := qmul v p.unit_to_mm_factor },
                [GAction.set_feedrate (qmul v p.unit_to_mm_factor)]) := by
            simp [move_step, hfe]
          simp only [move_loop, hp, if_pos rfl, hfe, if_false, List.foldl_cons,
            hstep, List.any_cons]
          rw [ih remaining { p with current_feedrate := qmul v p.unit_to_mm_factor }
            any hr]
          rw [foldl_move_step_acc _ _ [GAction.set_feedrate (qmul v p.unit_to_mm_factor)]]
          simp only [hFa, Option.isSome_none, Bool.false_or, List.cons_append,
            List.nil_append, List.append_assoc, if_true, ite_true, ite_false, if_false]
      · cases ha : axis_letter_index c with
        | some i =>
          have hmp : is_move_param c = true := by simp [is_move_param, ha]
          rw [move_params_cons hp hmp, move_rest_cons hp hmp]
          have hstep : move_step (p, []) (c, v) =
              ({ p with axes_pos :=
                  p.axes_pos.set i (move_axis_update p i (qmul v p.unit_to_mm_factor)) },
                []) := by
            simp [move_step, hF, ha]
          simp only [move_loop, hp, hF, if_false, ha, List.foldl_cons, hstep,
            List.any_cons]
          rw [ih remaining _ true hr]
          simp [ha]
        | none =>
          have hmp : is_move_param c = false := by simp [is_move_param, hF, ha]
          rw [move_params_stop hp hmp, move_rest_stop hp hmp]
          simp [move_loop, hp, hF, ha]

theorem qadd_eq (a b : Rat) : qadd a b = a + b := by
  have ha : ((a.den : Rat)) ≠ 0 := by exact_mod_cast a.den_nz
  have hb : ((b.den : Rat)) ≠ 0 := by exact_mod_cast b.den_nz
  rw [qadd, Rat.mkRat_eq_div]
  push_cast
  conv_rhs => rw [← Rat.num_div_den a, ← Rat.num_div_den b]
  field_simp

theorem qsub_eq (a b : Rat) : qsub a b = a - b := by
  have ha : ((a.den : Rat)) ≠ 0 := by exact_mod_cast a.den_nz
  have hb : ((b.den : Rat)) ≠ 0 := by exact_mod_cast b.den_nz
  rw [qsub, Rat.mkRat_eq_div]
  push_cast
  conv_rhs => rw [← Rat.num_div_den a, ← Rat.num_div_den b]
  field_simp
  ring

theorem qmul_eq (a b : Rat) : qmul a b = a * b := by
  have ha : ((a.den : Rat)) ≠ 0 := by exact_mod_cast a.den_nz
  have hb : ((b.den : Rat)) ≠ 0 := by exact_mod_cast b.den_nz
  rw [qmul, Rat.mkRat_eq_div]
  push_cast
  conv_rhs => rw [← Rat.num_div_den a, ← Rat.num_div_den b]
  field_simp

theorem qdivPow10_eq (q : Rat) (k : Nat) : qdivPow10 q k = q / (10 : Rat) ^ k := by
  have hq : ((q.den : Rat)) ≠ 0 := by exact_mod_cast q.den_nz
  have hk : ((10 : Rat) ^ k) ≠ 0 := pow_ne_zero _ (by norm_num)
  rw [qdivPow10, Rat.mkRat_eq_div]
  push_cast
  conv_rhs => rw [← Rat.num_div_den q]
  field_simp

theorem ratPow10_eq (n : Nat) : ratPow10 n = (10 : Rat) ^ n := by
  rw [ratPow10]
  push_cast
  ring

theorem rebase_loop_invariants (fuel : Nat) :
    ∀ (p : GCodeParser) (line : List Char),
      (rebase_loop fuel p line).1.axes_pos = p.axes_pos ∧
      (rebase_loop fuel p line).1.unit_to_mm_factor = p.unit_to_mm_factor ∧
      (rebase_loop fuel p line).1.current_feedrate = p.current_feedrate ∧
      (rebase_loop fuel p line).1.axis_is_absolute = p.axis_is_absolute := by
  induction fuel with
  | zero => intro p line; simp [rebase_loop]
  | succ f ih =>
    intro p line
    cases hp : parse_next_pair line with
    | none => simp [rebase_loop, hp]
    | some t =>
      obtain ⟨c, v, r⟩ := t
      cases ha : axis_letter_index c with
      | none => simp [rebase_loop, hp, ha]
      | some i =>
        simp only [rebase_loop, hp, ha]
        have := ih { p with relative_zero :=
          p.relative_zero.set i (qsub (p.axes_pos.getD i 0) (qmul v p.unit_to_mm_factor)) } r
        simpa using this

theorem rebase_loop_step {fuel : Nat} {p : GCodeParser} {line : List Char}
    {c : Char} {v : Rat} {r : List Char} {i : Nat}
    (hp : parse_next_pair line = some (c, v, r))
    (ha : axis_letter_index c = some i) :
    rebase_loop (fuel + 1) p line =
      rebase_loop fuel
        { p with relative_zero :=
            p.relative_zero.set i (qsub (p.axes_pos.getD i 0) (qmul v p.unit_to_mm_factor)) }
        r := by
  simp [rebase_loop, hp, ha]

theorem parse_loop_none (cb : UnprocessedCb) (fuel : Nat) (p : GCodeParser) :
    parse_loop cb fuel p none = (p, []) := by
  cases fuel <;> simp [parse_loop]

theorem exec_G_unhandled {p : GCodeParser} {cb : UnprocessedCb} {v : Rat}
    {line : List Char} (hc : ctrunc v ∉ handledGCodes) :
    exec_G p cb v line = (p, [GAction.unprocessed 'G' v line], cb 'G' v line) := by
  simp only [handledGCodes, List.mem_cons, List.not_mem_nil, or_false, not_or] at hc
  obtain ⟨h0, h1, h2, h3, h4, h5, h6, h7⟩ := hc
  simp [exec_G, h0, h1, h2, h3, h4, h5, h6, h7]

theorem exec_M_unhandled {p : GCodeParser} {cb : UnprocessedCb} {v : Rat}
    {line : List Char} (hc : ctrunc v ∉ handledMCodes) :
    exec_M p cb v line = (p, [GAction.unprocessed 'M' v line], cb 'M' v line) := by
  simp only [handledMCodes, List.mem_cons, List.not_mem_nil, or_false, not_or] at hc
  obtain ⟨h0, h1, h2, h3, h4, h5, h6, h7⟩ := hc
  simp [exec_M, h0, h1, h2, h3, h4, h5, h6, h7]

theorem parse_loop_other_letter {cb : UnprocessedCb} {fuel : Nat}
    {p : GCodeParser} {line : List Char} {letter : Char} {v : Rat}
    {rest : List Char} (hp : parse_next_pair line = some (letter, v, rest))
    (hG : letter ≠ 'G') (hM : letter ≠ 'M') (hN : letter ≠ 'N') :
    parse_loop cb (fuel + 1) p (some line) =
      ((parse_loop cb fuel p (cb letter v rest)).1,
        GAction.unprocessed letter v rest ::
          (parse_loop cb fuel p (cb letter v rest)).2) := by
  simp [parse_loop, hp, hG, hM, hN]

theorem parse_loop_G {cb : UnprocessedCb} {fuel : Nat} {p : GCodeParser}
    {line : List Char} {v : Rat} {rest : List Char}
    (hp : parse_next_pair line = some ('G', v, rest)) :
    parse_loop cb (fuel + 1) p (some line) =
      ((parse_loop cb fuel (exec_G p cb v rest).1 (exec_G p cb v rest).2.2).1,
        (exec_G p cb v rest).2.1 ++
          (parse_loop cb fuel (exec_G p cb v rest).1 (exec_G p cb v rest).2.2).2) := by
  simp [parse_loop, hp]

theorem parse_loop_M {cb : UnprocessedCb} {fuel : Nat} {p : GCodeParser}
    {line : List Char} {v : Rat} {rest : List Char}
    (hp : parse_next_pair line = some ('M', v, rest)) :
    parse_loop cb (fuel + 1) p (some line) =
      ((parse_loop cb fuel (exec_M p cb v rest).1 (exec_M p cb v rest).2.2).1,
        (exec_M p cb v rest).2.1 ++
          (parse_loop cb fuel (exec_M p cb v rest).1 (exec_M p cb v rest).2.2).2) := by
  simp [parse_loop, hp]

theorem handle_home_spec (p : GCodeParser) (line : List Char) :
    handle_home p line =
      ({ p with
          axes_pos := List.replicate GCODE_NUM_AXES 0
          relative_zero := List.replicate GCODE_NUM_AXES 0 },
        [GAction.go_home
          (if named_axes_mask (line.length + 1) line ≠ 0 then
            named_axes_mask (line.length + 1) line
          else kAllAxesBitmap)],
        (home_loop (line.length + 1) line 0).2) := by
  have h1 := home_flags_spec (line.length + 1) line 0 (Nat.lt_succ_self _)
  simp at h1
  simp [handle_home, h1]

theorem digit_facts {d : Char} (hd : d.isDigit = true) :
    cIsSpace d = false ∧ d ≠ '+' ∧ d ≠ '-' ∧ d ≠ '.' := by
  refine ⟨?_, ?_, ?_, ?_⟩
  · by_cases h : cIsSpace d = true
    · exfalso
      simp only [cIsSpace, Bool.or_eq_true, decide_eq_true_eq] at h
      rcases h with ((((h | h) | h) | h) | h) | h <;> subst h <;> exact absurd hd (by decide)
    · simpa using h
  · intro h; subst h; exact absurd hd (by decide)
  · intro h; subst h; exact absurd hd (by decide)
  · intro h; subst h; exact absurd hd (by decide)

theorem sign_part_other {s : List Char} (h1 : s.head? ≠ some '+')
    (h2 : s.head? ≠ some '-') : sign_part s = (1, s) := by
  unfold sign_part
  split
  · simp_all
  · simp_all
  · rfl

theorem frac_part_other {s : List Char} (h1 : s.head? ≠ some '.') :
    frac_part s = (none, s) := by
  unfold frac_part
  split
  · simp_all
  · rfl

/-- `strtof` on a single digit: the digit's value, everything consumed. -/
theorem strtof_dec_digit {d : Char} (hd : d.isDigit = true) :
    strtof_dec [d] = some (((d.toNat - 48 : Nat) : Rat), []) := by
  obtain ⟨hs, hplus, hminus, hdot⟩ := digit_facts hd
  have hsign : sign_part [d] = (1, [d]) :=
    sign_part_other (by simp [hplus]) (by simp [hminus])
  have htd : takeDigits [d] = ([d], []) := by
    simp [takeDigits, hd]
  have hfrac : frac_part ([] : List Char) = (none, []) := rfl
  simp only [strtof_dec, hsign, htd, hfrac]
  norm_num
  have h0 : apply_exp (qmul 1 (qadd ((digitsToNat [d] : Nat) : Rat) 0)) 0 =
      qmul (qmul 1 (qadd ((digitsToNat [d] : Nat) : Rat) 0)) (ratPow10 0) := rfl
  rw [exp_part, h0, qmul_eq, qmul_eq, qadd_eq, ratPow10_eq]
  simp [digitsToNat]

/-- The general hexadecimal-repair behavior: when the character one past
the first character of the numeric field is `x` or `X`, the literal is
cut at that position (here: a single digit) and letter scanning resumes
at an uppercase `X`. -/
theorem parse_repair_general (L d x : Char) (rest : List Char)
    (hL : cIsSpace L = false) (hsc : ¬(L = ';' ∨ L = '%'))
    (hst : L.toUpper ≠ '*') (hd : d.isDigit = true) (hx : x = 'x' ∨ x = 'X') :
    parse_next_pair (L :: d :: x :: rest) =
      some (L.toUpper, ((d.toNat - 48 : Nat) : Rat), 'X' :: rest) := by
  obtain ⟨hds, -, -, -⟩ := digit_facts hd
  have hXs : cIsSpace 'X' = false := by decide
  rw [parse_next_pair]
  rw [show skip_space (L :: d :: x :: rest) = L :: d :: x :: rest by
    simp [skip_space, hL]]
  rw [parse_pair_core]
  rw [if_neg hsc, if_neg (by simp), if_neg hst]
  rw [show skip_space (d :: x :: rest) = d :: x :: rest by simp [skip_space, hds]]
  rw [number_part]
  rw [if_pos hx, strtof_dec_digit hd]
  rw [show skip_space ('X' :: rest) = 'X' :: rest by simp [skip_space, hXs]]

theorem skip_space_all {ws : List Char} (h : ∀ w ∈ ws, cIsSpace w = true) :
    skip_space ws = [] := by
  induction ws with
  | nil => rfl
  | cons w ws ih =>
    have hw : cIsSpace w = true := h w (by simp)
    simp only [skip_space, hw, if_pos]
    exact ih (fun w hmem => h w (by simp [hmem]))

theorem exists_cons_of_length_seven {α : Type} {l : List α} (h : l.length = 7) :
    ∃ a0 a1 a2 a3 a4 a5 a6, l = [a0, a1, a2, a3, a4, a5, a6] := by
  rcases l with - | ⟨a0, l⟩
  · simp at h
  rcases l with - | ⟨a1, l⟩
  · simp at h
  rcases l with - | ⟨a2, l⟩
  · simp at h
  rcases l with - | ⟨a3, l⟩
  · simp at h
  rcases l with - | ⟨a4, l⟩
  · simp at h
  rcases l with - | ⟨a5, l⟩
  · simp at h
  rcases l with - | ⟨a6, l⟩
  · simp at h
  rcases l with - | ⟨a7, l⟩
  · exact ⟨a0, a1, a2, a3, a4, a5, a6, rfl⟩
  · simp at h

/-- Claim C1 counterexample: the line `G28 X` does not emit `go_home`
with only the X bit set — the bare `X` is a malformed word (letter with
no value), so no axis is named and the handler falls back to the full
7-axis bitmask 127. -/
theorem C1_counterexample :
    (gcodep_parse_line dummy_unprocessed gcodep_new ("G28 X".toList)).2 =
      [GAction.go_home 127] ∧
    [GAction.go_home 127] ≠ [GAction.go_home (1 <<< AXIS_X)] := by
  constructor
  · decide
  · decide

/-- Claim C1, amended: for every line beginning with G28, the handler
resets `position` and `relative_zero` to zero for all 7 axes
unconditionally; well-formed axis-letter words are consumed with their
values ignored, accumulating the bitmask of named axes up to the first
non-axis letter or malformed word; exactly one `go_home` action is
emitted, carrying that bitmask if nonzero and the full 7-axis bitmask
otherwise.  `G28 X0` emits `go_home` with only the X bit; `G28 X` (a
malformed axis word with no value) names no axis and emits `go_home`
with the full bitmask, while still zeroing all stored positions. -/
theorem C1_theorem :
    (∀ (p : GCodeParser) (line : List Char), ∃ rest,
      handle_home p line =
        ({ p with
            axes_pos := List.replicate GCODE_NUM_AXES 0
            relative_zero := List.replicate GCODE_NUM_AXES 0 },
          [GAction.go_home
            (if named_axes_mask (line.length + 1) line ≠ 0 then
              named_axes_mask (line.length + 1) line
            else kAllAxesBitmap)], rest)) ∧
    gcodep_parse_line dummy_unprocessed
        { gcodep_new with
            axes_pos := [3, 4, 5, 6, 7, 8, 9]
            relative_zero := [1, 1, 1, 1, 1, 1, 1] }
        ("G28 X0".toList) =
      (gcodep_new, [GAction.go_home (1 <<< AXIS_X)]) ∧
    gcodep_parse_line dummy_unprocessed
        { gcodep_new with
            axes_pos := [3, 4, 5, 6, 7, 8, 9]
            relative_zero := [1, 1, 1, 1, 1, 1, 1] }
        ("G28 X".toList) =
      (gcodep_new, [GAction.go_home kAllAxesBitmap]) := by
  refine ⟨?_, by decide, by decide⟩
  intro p line
  exact ⟨(home_loop (line.length + 1) line 0).2, handle_home_spec p line⟩

/-- Claim C4: the tokenizer parses `G0X1` (no spaces) as the pair (G, 0)
followed by (X, 1) — a rapid move with X=1, not a hexadecimal-literal
failure; in general, when the character immediately after the first
character of the numeric field is `x`/`X`, the numeric literal ends
there and letter scanning resumes at that position. -/
theorem C4_theorem :
    (∀ (L d x : Char) (rest : List Char),
      cIsSpace L = false → ¬(L = ';' ∨ L = '%') → L.toUpper ≠ '*' →
      d.isDigit = true → (x = 'x' ∨ x = 'X') →
      parse_next_pair (L :: d :: x :: rest) =
        some (L.toUpper, ((d.toNat - 48 : Nat) : Rat), 'X' :: rest)) ∧
    parse_next_pair ("G0X1".toList) = some ('G', 0, "X1".toList) ∧
    parse_next_pair ("X1".toList) = some ('X', 1, []) ∧
    (gcodep_parse_line dummy_unprocessed gcodep_new ("G0X1".toList)).2 =
      [GAction.rapid_move [1, 0, 0, 0, 0, 0, 0]] ∧
    gcodep_parse_line dummy_unprocessed gcodep_new ("G0X1".toList) =
      gcodep_parse_line dummy_unprocessed gcodep_new ("G0 X1".toList) := by
  refine ⟨?_, by decide, by decide, by decide, by decide⟩
  intro L d x rest hL hsc hst hd hx
  exact parse_repair_general L d x rest hL hsc hst hd hx

/-- Witness for the general part of C4 at L=G, d=0, x=X, rest="1". -/
theorem C4_witness :
    parse_next_pair ('G' :: '0' :: 'X' :: "1".toList) =
      some ('G'.toUpper, (('0'.toNat - 48 : Nat) : Rat), 'X' :: "1".toList) :=
  C4_theorem.1 'G' '0' 'X' ("1".toList) (by decide) (by decide) (by decide)
    (by decide) (Or.inr rfl)

/-- Claim C9: when a word's letter is followed only by whitespace up to
the end of the line (e.g. `G `), the tokenizer reaches the numeric-field
position with the string exhausted and the hexadecimal-workaround test
`*(line+1)` reads one character past the end of the string; with a
nonempty numeric field (`G0X1`, `G0`) no such read happens. -/
theorem C9_theorem :
    (∀ (c : Char) (ws : List Char),
      cIsSpace c = false → ¬(c = ';' ∨ c = '%') → c.toUpper ≠ '*' → ws ≠ [] →
      (∀ w ∈ ws, cIsSpace w = true) →
      hex_check_reads_past_end (c :: ws) = true) ∧
    hex_check_reads_past_end ("G ".toList) = true ∧
    hex_check_reads_past_end ("G0X1".toList) = false ∧
    hex_check_reads_past_end ("G0".toList) = false := by
  refine ⟨?_, by decide, by decide, by decide⟩
  intro c ws hc hsc hst hne hws
  rw [hex_check_reads_past_end]
  rw [show skip_space (c :: ws) = c :: ws by simp [skip_space, hc]]
  rw [hex_check_core]
  rw [if_neg hsc, if_neg hne, if_neg hst, skip_space_all hws]
  rfl

/-- Witness for the general part of C9 at the line `G ` (letter G
followed by a single space). -/
theorem C9_witness :
    hex_check_reads_past_end ('G' :: [' ']) = true :=
  C9_theorem.1 'G' [' '] (by decide) (by decide) (by decide) (by decide)
    (by decide)

/-- Claim C10: the hexadecimal workaround always restores the repaired
byte as uppercase `X`, so for a lowercase input such as `J0x1` the
remaining-line text passed onward — including the text handed to the
`unprocessed` callback — has `X` where the original input had `x`. -/
theorem C10_theorem :
    (∀ (L d : Char) (rest : List Char),
      cIsSpace L = false → ¬(L = ';' ∨ L = '%') → L.toUpper ≠ '*' →
      d.isDigit = true →
      parse_next_pair (L :: d :: 'x' :: rest) =
        some (L.toUpper, ((d.toNat - 48 : Nat) : Rat), 'X' :: rest)) ∧
    parse_next_pair ("J0x1".toList) = some ('J', 0, "X1".toList) ∧
    ("J0x1".toList).drop 2 = 'x' :: "1".toList ∧
    ('X' :: "1".toList) ≠ ('x' :: "1".toList) ∧
    (gcodep_parse_line dummy_unprocessed gcodep_new ("J0x1".toList)).2 =
      [GAction.unprocessed 'J' 0 ("X1".toList)] := by
  refine ⟨?_, by decide, by decide, by decide, by decide⟩
  intro L d rest hL hsc hst hd
  exact parse_repair_general L d 'x' rest hL hsc hst hd (Or.inl rfl)

/-- Witness for the general part of C10 at L=J, d=0, rest="1". -/
theorem C10_witness :
    parse_next_pair ('J' :: '0' :: 'x' :: "1".toList) =
      some ('J'.toUpper, (('0'.toNat - 48 : Nat) : Rat), 'X' :: "1".toList) :=
  C10_theorem.1 'J' '0' ("1".toList) (by decide) (by decide) (by decide)
    (by decide)

/-- Claim C2 counterexample: for the line `J5 X1` the `unprocessed`
callback is invoked with the remaining text after the `J5` word was
consumed (`X1`), not with the text before it was consumed (`J5 X1`). -/
theorem C2_counterexample :
    (gcodep_parse_line dummy_unprocessed gcodep_new ("J5 X1".toList)).2 =
      [GAction.unprocessed 'J' 5 ("X1".toList)] ∧
    ("X1".toList : List Char) ≠ "J5 X1".toList := by
  constructor
  · decide
  · decide

/-- Claim C2, amended: for every top-level word whose letter is not G, M
or N, and for every G or M word whose truncated code has no registered
handler, the interpreter invokes the `unprocessed` callback with the
word's letter, its numeric value, and the remaining line text after this
word was consumed; top-level tokenizing resumes from the string the
callback returns, and a `none` return ends processing of the line. -/
theorem C2_theorem :
    (∀ (cb : UnprocessedCb) (fuel : Nat) (p : GCodeParser) (line : List Char)
        (letter : Char) (v : Rat) (rest : List Char),
      parse_next_pair line = some (letter, v, rest) →
      letter ≠ 'G' → letter ≠ 'M' → letter ≠ 'N' →
      parse_loop cb (fuel + 1) p (some line) =
        ((parse_loop cb fuel p (cb letter v rest)).1,
          GAction.unprocessed letter v rest ::
            (parse_loop cb fuel p (cb letter v rest)).2)) ∧
    (∀ (cb : UnprocessedCb) (fuel : Nat) (p : GCodeParser) (line : List Char)
        (v : Rat) (rest : List Char),
      parse_next_pair line = some ('G', v, rest) →
      ctrunc v ∉ handledGCodes →
      parse_loop cb (fuel + 1) p (some line) =
        ((parse_loop cb fuel p (cb 'G' v rest)).1,
          GAction.unprocessed 'G' v rest ::
            (parse_loop cb fuel p (cb 'G' v rest)).2)) ∧
    (∀ (cb : UnprocessedCb) (fuel : Nat) (p : GCodeParser) (line : List Char)
        (v : Rat) (rest : List Char),
      parse_next_pair line = some ('M', v, rest) →
      ctrunc v ∉ handledMCodes →
      parse_loop cb (fuel + 1) p (some line) =
        ((parse_loop cb fuel p (cb 'M' v rest)).1,
          GAction.unprocessed 'M' v rest ::
            (parse_loop cb fuel p (cb 'M' v rest)).2)) ∧
    (∀ (cb : UnprocessedCb) (fuel : Nat) (p : GCodeParser),
      parse_loop cb fuel p none = (p, [])) ∧
    (gcodep_parse_line (fun _ _ r => some r) gcodep_new ("J5 X1".toList)).2 =
      [GAction.unprocessed 'J' 5 ("X1".toList), GAction.unprocessed 'X' 1 []] := by
  refine ⟨?_, ?_, ?_, ?_, by decide⟩
  · intro cb fuel p line letter v rest hp hG hM hN
    exact parse_loop_other_letter hp hG hM hN
  · intro cb fuel p line v rest hp hc
    rw [parse_loop_G hp, exec_G_unhandled hc]
    simp
  · intro cb fuel p line v rest hp hc
    rw [parse_loop_M hp, exec_M_unhandled hc]
    simp
  · intro cb fuel p
    exact parse_loop_none cb fuel p

/-- Witness for C2: the `J5` word with the default callback. -/
theorem C2_witness :
    parse_loop dummy_unprocessed (0 + 1) gcodep_new (some ("J5".toList)) =
      ((parse_loop dummy_unprocessed 0 gcodep_new
          (dummy_unprocessed 'J' 5 [])).1,
        GAction.unprocessed 'J' 5 [] ::
          (parse_loop dummy_unprocessed 0 gcodep_new
            (dummy_unprocessed 'J' 5 [])).2) :=
  C2_theorem.1 dummy_unprocessed 0 gcodep_new ("J5".toList) 'J' 5 []
    (by decide) (by decide) (by decide) (by decide)

/-- Claim C3: a G0/G1 move consumes {F, X, Y, Z, E, A, B, C} words in
any order up to the first other letter; each axis word updates its axis
by the absolute/relative rule with unit scaling; exactly one move action
(rapid for G0, coordinated for G1) carrying the full 7-axis position is
emitted when at least one axis word was consumed, and none otherwise
(e.g. an F-only line). -/
theorem C3_theorem :
    (∀ (p : GCodeParser) (mk : List Rat → GAction) (line : List Char),
      handle_move p mk line =
        ((move_spec p mk line).1, (move_spec p mk line).2,
          move_rest (line.length + 1) line)) ∧
    (gcodep_parse_line dummy_unprocessed gcodep_new ("G0 X1".toList)).2 =
      [GAction.rapid_move [1, 0, 0, 0, 0, 0, 0]] ∧
    (gcodep_parse_line dummy_unprocessed gcodep_new ("G1 X1".toList)).2 =
      [GAction.coordinated_move [1, 0, 0, 0, 0, 0, 0]] ∧
    (gcodep_parse_line dummy_unprocessed gcodep_new ("G1 F100".toList)).2 =
      [GAction.set_feedrate 100] ∧
    (gcodep_parse_line dummy_unprocessed gcodep_new ("G1 Z2 X1".toList)).2 =
      [GAction.coordinated_move [1, 0, 2, 0, 0, 0, 0]] := by
  refine ⟨?_, by decide, by decide, by decide, by decide⟩
  intro p mk line
  have h := move_loop_spec mk (line.length + 1) line p false (Nat.lt_succ_self _)
  rw [handle_move, h]
  simp only [move_spec, Bool.false_or]

/-- Claim C5: both malformed-input kinds (letter with no value; value
that fails to parse) stop parsing of the current line without touching
state mutated by earlier words; the line `G` leaves the machine state
unchanged and emits no action. -/
theorem C5_theorem :
    (∀ c : Char, parse_next_pair [c] = none) ∧
    parse_next_pair ("Y&".toList) = none ∧
    (∀ p : GCodeParser,
      gcodep_parse_line dummy_unprocessed p ("G".toList) = (p, [])) ∧
    (∀ p : GCodeParser,
      gcodep_parse_line dummy_unprocessed p ("G1 X5 Y".toList) =
        gcodep_parse_line dummy_unprocessed p ("G1 X5".toList)) ∧
    (∀ p : GCodeParser,
      gcodep_parse_line dummy_unprocessed p ("G1 X5 Y&".toList) =
        gcodep_parse_line dummy_unprocessed p ("G1 X5".toList)) := by
  refine ⟨?_, by decide, ?_, ?_, ?_⟩
  · intro c
    by_cases hc : cIsSpace c = true
    · simp [parse_next_pair, skip_space, hc, parse_pair_core]
    · simp only [Bool.not_eq_true] at hc
      simp [parse_next_pair, skip_space, hc, parse_pair_core]
  · intro p; rfl
  · intro p; rfl
  · intro p; rfl

/-- Claim C6: an F word updates the stored feedrate and emits
`set_feedrate` only when the new scaled value differs from the stored
one; two consecutive `G1 F100 X1` lines from the initial state emit
`set_feedrate` exactly once, on the first line. -/
theorem C6_theorem :
    (∀ (mk : List Rat → GAction) (fuel : Nat) (p : GCodeParser)
        (line : List Char) (v : Rat) (r : List Char) (any : Bool),
      parse_next_pair line = some ('F', v, r) →
      move_loop mk (fuel + 1) p line any =
        (if p.current_feedrate = qmul v p.unit_to_mm_factor then
          move_loop mk fuel p r any
        else
          ((move_loop mk fuel
              { p with current_feedrate := qmul v p.unit_to_mm_factor } r any).1,
            GAction.set_feedrate (qmul v p.unit_to_mm_factor) ::
              (move_loop mk fuel
                { p with current_feedrate := qmul v p.unit_to_mm_factor } r any).2.1,
            (move_loop mk fuel
              { p with current_feedrate := qmul v p.unit_to_mm_factor } r any).2.2))) ∧
    (gcodep_parse_line dummy_unprocessed gcodep_new
        ("G1 F100 X1".toList)).2.countP is_set_feedrate = 1 ∧
    (gcodep_parse_line dummy_unprocessed
        (gcodep_parse_line dummy_unprocessed gcodep_new ("G1 F100 X1".toList)).1
        ("G1 F100 X1".toList)).2.countP is_set_feedrate = 0 := by
  refine ⟨?_, by decide, by decide⟩
  intro mk fuel p line v r any hp
  by_cases hfe : p.current_feedrate = qmul v p.unit_to_mm_factor
  · rw [if_pos hfe]
    simp [move_loop, hp, hfe]
  · rw [if_neg hfe]
    simp [move_loop, hp, hfe]

/-- Witness for the general part of C6: an F word from the initial
state (stored feedrate 0, scaled value 100). -/
theorem C6_witness :
    move_loop GAction.coordinated_move (0 + 1) gcodep_new ("F100".toList) false =
      (if gcodep_new.current_feedrate = qmul 100 gcodep_new.unit_to_mm_factor then
        move_loop GAction.coordinated_move 0 gcodep_new [] false
      else
        ((move_loop GAction.coordinated_move 0
            { gcodep_new with
                current_feedrate := qmul 100 gcodep_new.unit_to_mm_factor }
            [] false).1,
          GAction.set_feedrate (qmul 100 gcodep_new.unit_to_mm_factor) ::
            (move_loop GAction.coordinated_move 0
              { gcodep_new with
                  current_feedrate := qmul 100 gcodep_new.unit_to_mm_factor }
              [] false).2.1,
          (move_loop GAction.coordinated_move 0
            { gcodep_new with
                current_feedrate := qmul 100 gcodep_new.unit_to_mm_factor }
            [] false).2.2)) :=
  C6_theorem.1 GAction.coordinated_move 0 gcodep_new ("F100".toList) 100 []
    false (by decide)

/-- Claim C8: the command code used for G/M dispatch is the parsed value
truncated toward zero; a G word with value 0.9 dispatches to the G0
(rapid move) handler, so `G0.9 X1` behaves exactly like `G0 X1`. -/
theorem C8_theorem :
    (∀ (p : GCodeParser) (cb : UnprocessedCb) (v : Rat) (line : List Char),
      ctrunc v = 0 →
      exec_G p cb v line =
        ((handle_move p GAction.rapid_move line).1,
          (handle_move p GAction.rapid_move line).2.1,
          some (handle_move p GAction.rapid_move line).2.2)) ∧
    ctrunc (mkRat 9 10) = 0 ∧
    gcodep_parse_line dummy_unprocessed gcodep_new ("G0.9 X1".toList) =
      gcodep_parse_line dummy_unprocessed gcodep_new ("G0 X1".toList) ∧
    (gcodep_parse_line dummy_unprocessed gcodep_new ("G0.9 X1".toList)).2 =
      [GAction.rapid_move [1, 0, 0, 0, 0, 0, 0]] := by
  refine ⟨?_, by decide, by decide, by decide⟩
  intro p cb v line h
  simp [exec_G, h]

/-- Witness for the general part of C8 at v = 9/10. -/
theorem C8_witness :
    exec_G gcodep_new dummy_unprocessed (mkRat 9 10) ("X1".toList) =
      ((handle_move gcodep_new GAction.rapid_move ("X1".toList)).1,
        (handle_move gcodep_new GAction.rapid_move ("X1".toList)).2.1,
        some (handle_move gcodep_new GAction.rapid_move ("X1".toList)).2.2) :=
  C8_theorem.1 gcodep_new dummy_unprocessed (mkRat 9 10) ("X1".toList)
    (by decide)

theorem parse_loop_stop {cb : UnprocessedCb} {fuel : Nat} {p : GCodeParser}
    {line : List Char} (h : parse_next_pair line = none) :
    parse_loop cb fuel p (some line) = (p, []) := by
  cases fuel <;> simp [parse_loop, h]

theorem rebase_loop_stop {fuel : Nat} {p : GCodeParser} {line : List Char}
    (h : parse_next_pair line = none) :
    rebase_loop fuel p line = (p, line) := by
  cases fuel <;> simp [rebase_loop, h]

theorem move_loop_stop {mk : List Rat → GAction} {fuel : Nat}
    {p : GCodeParser} {line : List Char} {any : Bool}
    (h : parse_next_pair line = none) :
    move_loop mk fuel p line any =
      (p, (if any then [mk p.axes_pos] else []), line) := by
  cases fuel <;> simp [move_loop, h]

theorem move_loop_axis_step {mk : List Rat → GAction} {fuel : Nat}
    {p : GCodeParser} {line : List Char} {c : Char} {v : Rat} {r : List Char}
    {i : Nat} {any : Bool} (hp : parse_next_pair line = some (c, v, r))
    (hF : c ≠ 'F') (ha : axis_letter_index c = some i) :
    move_loop mk (fuel + 1) p line any =
      move_loop mk fuel
        { p with axes_pos :=
            p.axes_pos.set i (move_axis_update p i (qmul v p.unit_to_mm_factor)) }
        r true := by
  simp [move_loop, hp, hF, ha]

theorem exec_G_92 (p : GCodeParser) (cb : UnprocessedCb) (line : List Char) :
    exec_G p cb 92 line =
      ((handle_rebase p line).1, (handle_rebase p line).2.1,
        some (handle_rebase p line).2.2) := by
  have h : ctrunc (92 : Rat) = 92 := by decide
  simp [exec_G, h]

theorem exec_G_1 (p : GCodeParser) (cb : UnprocessedCb) (line : List Char) :
    exec_G p cb 1 line =
      ((handle_move p GAction.coordinated_move line).1,
        (handle_move p GAction.coordinated_move line).2.1,
        some (handle_move p GAction.coordinated_move line).2.2) := by
  have h : ctrunc (1 : Rat) = 1 := by decide
  simp [exec_G, h]

/-- Effect of the line `G92 X5`: the X relative zero is rebased to the
current X position minus the scaled 5, nothing else changes, and no
action is emitted. -/
theorem g92_x5_run (p : GCodeParser) :
    gcodep_parse_line dummy_unprocessed p ("G92 X5".toList) =
      ({ p with relative_zero :=
          p.relative_zero.set 0 (qsub (p.axes_pos.getD 0 0) (qmul 5 p.unit_to_mm_factor)) },
        []) := by
  have h92 : parse_next_pair ("G92 X5".toList) = some ('G', 92, "X5".toList) := by
    decide
  have hx5 : parse_next_pair ("X5".toList) = some ('X', 5, []) := by decide
  have hnil : parse_next_pair ([] : List Char) = none := by decide
  have hax : axis_letter_index 'X' = some 0 := by decide
  rw [gcodep_parse_line, parse_loop_G h92, exec_G_92]
  simp only [handle_rebase]
  rw [rebase_loop_step hx5 hax, rebase_loop_stop hnil]
  rw [parse_loop_stop hnil]
  rfl

/-- Effect of the line `G1 X5` in absolute-X mode: the X position
becomes relative zero plus the scaled 5. -/
theorem g1_x5_run (p : GCodeParser)
    (habs : p.axis_is_absolute.getD 0 false = true) :
    (gcodep_parse_line dummy_unprocessed p ("G1 X5".toList)).1.axes_pos =
      p.axes_pos.set 0
        (qadd (p.relative_zero.getD 0 0) (qmul 5 p.unit_to_mm_factor)) := by
  have hg1 : parse_next_pair ("G1 X5".toList) = some ('G', 1, "X5".toList) := by
    decide
  have hx5 : parse_next_pair ("X5".toList) = some ('X', 5, []) := by decide
  have hnil : parse_next_pair ([] : List Char) = none := by decide
  have hax : axis_letter_index 'X' = some 0 := by decide
  rw [gcodep_parse_line, parse_loop_G hg1, exec_G_1]
  rw [handle_move]
  rw [move_loop_axis_step hx5 (by decide) hax, move_loop_stop hnil]
  rw [parse_loop_stop hnil]
  have habs2 : (p.axis_is_absolute[0]?.getD false) = true := by simpa using habs
  simp [move_axis_update, habs2]

/-- Claim C7: G92 sets `relative_zero[axis] = position[axis] -
scaled_value` for each consumed axis word, emits no action, and leaves
the position (and all other non-`relative_zero` state) unchanged;
consequently, after `G92 X5`, an absolute-mode `G1 X5` produces no net
X motion: the X position equals its value before the G92. -/
theorem C7_theorem :
    (∀ (p : GCodeParser) (line : List Char),
      (handle_rebase p line).2.1 = [] ∧
      (handle_rebase p line).1.axes_pos = p.axes_pos ∧
      (handle_rebase p line).1.unit_to_mm_factor = p.unit_to_mm_factor ∧
      (handle_rebase p line).1.current_feedrate = p.current_feedrate ∧
      (handle_rebase p line).1.axis_is_absolute = p.axis_is_absolute) ∧
    (∀ (fuel : Nat) (p : GCodeParser) (line : List Char) (c : Char) (v : Rat)
        (r : List Char) (i : Nat),
      parse_next_pair line = some (c, v, r) → axis_letter_index c = some i →
      rebase_loop (fuel + 1) p line =
        rebase_loop fuel
          { p with relative_zero :=
              p.relative_zero.set i (qsub (p.axes_pos.getD i 0) (qmul v p.unit_to_mm_factor)) }
          r) ∧
    (∀ p : GCodeParser, WellFormed p →
      p.axis_is_absolute.getD 0 false = true →
      ((gcodep_parse_line dummy_unprocessed
          (gcodep_parse_line dummy_unprocessed p ("G92 X5".toList)).1
          ("G1 X5".toList)).1).axes_pos.getD 0 0 = p.axes_pos.getD 0 0) := by
  refine ⟨?_, ?_, ?_⟩
  · intro p line
    have h := rebase_loop_invariants (line.length + 1) p line
    simp only [handle_rebase]
    exact ⟨by simp, h.1, h.2.1, h.2.2.1, h.2.2.2⟩
  · intro fuel p line c v r i hp ha
    exact rebase_loop_step hp ha
  · intro p hwf habs
    obtain ⟨-, hrz, hpos⟩ := hwf
    rw [g92_x5_run p]
    rw [g1_x5_run _ (by simpa using habs)]
    obtain ⟨r0, r1, r2, r3, r4, r5, r6, hrzeq⟩ := exists_cons_of_length_seven hrz
    obtain ⟨y0, y1, y2, y3, y4, y5, y6, hposeq⟩ := exists_cons_of_length_seven hpos
    simp only [hrzeq, hposeq, List.set, List.getD, List.get?, Option.getD,
      List.getD_cons_zero]
    rw [qadd_eq, qsub_eq, qmul_eq]
    ring

/-- Witness for C7: the round trip from position X=3 with metric scale,
absolute mode. -/
theorem C7_witness :
    ((gcodep_parse_line dummy_unprocessed
        (gcodep_parse_line dummy_unprocessed
          { gcodep_new with axes_pos := [3, 0, 0, 0, 0, 0, 0] }
          ("G92 X5".toList)).1
        ("G1 X5".toList)).1).axes_pos.getD 0 0 =
      ({ gcodep_new with axes_pos := [3, 0, 0, 0, 0, 0, 0] }
        : GCodeParser).axes_pos.getD 0 0 :=
  C7_theorem.2.2 { gcodep_new with axes_pos := [3, 0, 0, 0, 0, 0, 0] }
    (by decide) (by decide)
